import Mathlib

/-!
Shallow embedding of `src/script.js` from the repository
Automated-Role-Based-Course-Assignment: a browser admin console that
renders employee/role collections and handles two mutating actions
(create employee, assign role).

JS objects are modelled as Lean structures; a field that may be
`null`/absent in a response body is an `Option`.  A JS function that can
throw is embedded as an `Option`-returning function (`none` = throw).
DOM state is modelled explicitly and handlers are state transformers
taking the network response as an argument.
-/

namespace RoleAssign

/-- A course, as nested in an employee's `assigned_courses`. -/
structure Course where
  title : String
deriving Repr, DecidableEq

/-- A role: `{role_id, name}`. -/
structure Role where
  role_id : String
  name : String
deriving Repr, DecidableEq

/-- An employee snapshot as delivered in a response body.
`current_role` is `none` when the JSON field is `null`/absent (falsy in
the JS ternary at script.js:42); `assigned_courses` is `none` when the
JSON field is `null`/absent, in which case `emp.assigned_courses.length`
at script.js:45 throws a TypeError. -/
structure Employee where
  employee_id : String
  name : String
  current_role : Option Role
  assigned_courses : Option (List Course)
deriving Repr, DecidableEq

/-- script.js:45 — the `<ul>` content: one `<li>` per course title, in
input order, joined with no separator; the literal `<li>None</li>`
sentinel when the course list is empty. -/
def renderCourseItems (cs : List Course) : String :=
  if cs.length > 0 then String.join (cs.map fun c => "<li>" ++ c.title ++ "</li>")
  else "<li>None</li>"

/-- script.js:42 — the ternary `emp.current_role ? emp.current_role.name
: 'Not Assigned'`. -/
def roleText : Option Role → String
  | some r => r.name
  | none => "Not Assigned"

/-- The stable-key id attribute `id="employee-card-${emp.employee_id}"`
of script.js:40, by which the card is located later (script.js:107,149,
153). -/
def cardKeyAttr (id : String) : String :=
  "id=\"employee-card-" ++ id ++ "\""

/-- The interpolated part `${emp.name} (ID: ${emp.employee_id})` of the
Name line of script.js:41. -/
def nameIdText (name id : String) : String :=
  name ++ " (ID: " ++ id ++ ")"

/-- The template literal of script.js:39-48 with the interpolation holes
filled in; whitespace reproduced from the source. -/
def cardMarkup (emp : Employee) (cs : List Course) : String :=
  "\n            <div class=\"employee-card\" " ++ cardKeyAttr emp.employee_id
  ++ ">\n                <p><strong>Name:</strong> " ++ nameIdText emp.name emp.employee_id
  ++ "</p>\n                <p><strong>Current Role:</strong> " ++ roleText emp.current_role
  ++ "</p>\n                <p><strong>Assigned Courses:</strong></p>\n                <ul>\n                    "
  ++ renderCourseItems cs
  ++ "\n                </ul>\n            </div>\n        "

/-- script.js:38-49 `renderEmployeeCard(emp)`: evaluates the template
literal.  Reading `.length` of a `null`/absent `assigned_courses`
throws, which is the `none` result. -/
def renderEmployeeCard (emp : Employee) : Option String :=
  match emp.assigned_courses with
  | none => none
  | some cs => some (cardMarkup emp cs)

/-- `employees.map(renderEmployeeCard)` (script.js:57), which throws —
yields `none` — as soon as one card render throws. -/
def mapRender : List Employee → Option (List String)
  | [] => some []
  | e :: rest =>
    match renderEmployeeCard e, mapRender rest with
    | some c, some cs => some (c :: cs)
    | _, _ => none

/-- script.js:51-58 `renderEmployeeList(employees)` as the markup string
it assigns to `employeeListDiv.innerHTML`: the sentinel paragraph for an
empty sequence, otherwise `employees.map(renderEmployeeCard).join('')`
(`none` when some card render throws, in which case `innerHTML` is
never assigned). -/
def renderEmployeeList (employees : List Employee) : Option String :=
  if employees.length = 0 then some "<p>No employees found.</p>"
  else (mapRender employees).map String.join

/-- Substring containment on the byte-for-byte character data of the
markup strings. -/
def strInfix (needle haystack : String) : Prop :=
  needle.data <:+: haystack.data

instance (n h : String) : Decidable (strInfix n h) :=
  List.decidableInfix n.data h.data

/-! ## DOM state model

The list container `employeeListDiv` holds a sequence of top-level
nodes: bare `<p>` paragraphs (the empty-collection sentinel or the load
error message) or employee cards.  A card node records the employee
snapshot it was rendered from (its markup is `cardMarkup`) and whether
the transient `updated` CSS class is on it; the fire-and-forget
2-second un-highlight timers are not modelled (no claim concerns them).
-/

/-- A top-level node inside the employee list container. -/
inductive Node where
  | para (text : String)
  | card (emp : Employee) (updated : Bool)
deriving Repr, DecidableEq

/-- `textContent` of the first `<p>` descendant found by
`employeeListDiv.querySelector('p')` (script.js:88): a bare paragraph
yields its own text; a card's first inner `<p>` is the Name line, whose
`textContent` is `Name: <name> (ID: <id>)`. -/
def firstParaText : List Node → Option String
  | [] => none
  | .para t :: _ => some t
  | .card emp _ :: _ => some ("Name: " ++ nameIdText emp.name emp.employee_id)

/-- A triggering button: `disabled` flag and `textContent` label. -/
structure Btn where
  disabled : Bool
  label : String
deriving Repr, DecidableEq

/-- The DOM anchor points the script reads and writes.  Select controls
are (value, label) option lists plus the current `value` (the empty
string when nothing is selectable). -/
structure UIState where
  listRegion : List Node
  employeeOptions : List (String × String)
  employeeSelectedValue : String
  roleOptions : List (String × String)
  roleSelectedValue : String
  nameInput : String
  createBtn : Btn
  assignBtn : Btn
  message : String × String
deriving Repr, DecidableEq

/-- script.js:170-174 `showMessage(text, color)` as seen by the handler
state (text and color of the shared status line; the 5-second
auto-clear timer is modelled separately with explicit time below). -/
def showMessageS (s : UIState) (text color : String) : UIState :=
  { s with message := (text, color) }

/-- JS `x || fallback` for the `error` field of a response body: the
fallback is taken when the field is absent or the empty string (both
falsy). -/
def jsOr (x : Option String) (fallback : String) : String :=
  match x with
  | some v => if v = "" then fallback else v
  | none => fallback

/-- script.js:88-91 — clear the list container when the first `<p>`
found in it has textContent exactly `No employees found.`. -/
def clearSentinel (ns : List Node) : List Node :=
  match firstParaText ns with
  | some t => if t = "No employees found." then [] else ns
  | none => ns

/-- Whether `document.getElementById('employee-card-' + key)` finds a
card (script.js:149); ids `employee-card-a` and `employee-card-b`
coincide exactly when `a = b`, so keys are compared directly. -/
def cardExists (key : String) : List Node → Bool
  | [] => false
  | .card emp _ :: rest => emp.employee_id = key || cardExists key rest
  | .para _ :: rest => cardExists key rest

/-- script.js:151 — replace the first card whose id matches with a
freshly rendered card for `emp` (outerHTML assignment: the whole
element is replaced, with no `updated` class yet). -/
def replaceCard (emp : Employee) : List Node → List Node
  | [] => []
  | .card e u :: rest =>
      if e.employee_id = emp.employee_id then .card emp false :: rest
      else .card e u :: replaceCard emp rest
  | .para t :: rest => .para t :: replaceCard emp rest

/-- script.js:108/154 — `classList.add('updated')` on the first card
`getElementById` finds for the key. -/
def markUpdated (key : String) : List Node → List Node
  | [] => []
  | .card e u :: rest =>
      if e.employee_id = key then .card e true :: rest
      else .card e u :: markUpdated key rest
  | .para t :: rest => .para t :: markUpdated key rest

/-- Setting `select.value = v` (script.js:104): the select takes value
`v` when an option with that value exists, otherwise no option is
selected and `value` reads as the empty string. -/
def setSelectValue (opts : List (String × String)) (v : String) : String :=
  if opts.any (fun o => o.1 = v) then v else ""

/-- script.js:51-58 `renderEmployeeList` at the node level: the nodes
the assigned innerHTML parses to; `none` when mapping
`renderEmployeeCard` over the employees throws (so innerHTML is never
assigned). -/
def renderEmployeeListNodes (employees : List Employee) : Option (List Node) :=
  if employees.length = 0 then some [.para "No employees found."]
  else if employees.all (fun e => e.assigned_courses.isSome) then
    some (employees.map (fun e => .card e false))
  else none

/-- Outcome of the `fetch` + `response.json()` pair in `fetchEmployees`
(script.js:14-15): either the awaited pair threw, or it produced a
parsed employee list. -/
inductive LoadResult where
  | failure
  | success (emps : List Employee)
deriving Repr, DecidableEq

/-- script.js:12-26 `fetchEmployees()`: on success first rewrite the
employee selector options (innerHTML replacement resets the selection
to the first option), then render the list; any throw — transport,
parse, or a card render TypeError — lands in the catch, which replaces
the list region with the load-error paragraph. -/
def fetchEmployees (s : UIState) (r : LoadResult) : UIState :=
  match r with
  | .failure => { s with listRegion := [.para "Error loading employee data."] }
  | .success emps =>
      let opts := emps.map fun e => (e.employee_id, e.name)
      let sel := match opts with | [] => "" | o :: _ => o.1
      let s := { s with employeeOptions := opts, employeeSelectedValue := sel }
      match renderEmployeeListNodes emps with
      | some ns => { s with listRegion := ns }
      | none => { s with listRegion := [.para "Error loading employee data."] }

/-- Outcome of the `fetch` + `response.json()` pair in a mutating
handler: the awaited pair threw (with the thrown error's message), or a
response arrived with `response.ok` false (carrying the body's `error`
field, absent when the body has none), or with `response.ok` true and a
body parsed as an employee snapshot. -/
inductive MutResponse where
  | netFailure (msg : String)
  | badStatus (err : Option String)
  | success (emp : Employee)
deriving Repr, DecidableEq

/-- The message a thrown TypeError carries when `renderEmployeeCard`
reads `.length` of a `null` `assigned_courses` (engine-specific text,
modelled as an unspecified fixed string). -/
def typeErrorMessage : String := "TypeError: emp.assigned_courses is null"

/-- JS `String.prototype.trim` (script.js:63): strip leading and
trailing whitespace. -/
def jsTrim (s : String) : String :=
  ⟨((s.data.dropWhile Char.isWhitespace).reverse.dropWhile Char.isWhitespace).reverse⟩

/-- script.js:62-119 `handleCreateEmployee`, as a function of the DOM
state and the network outcome.  Validation failure returns before any
request; otherwise the button goes busy, the branches mirror the
try/catch body, and the `finally` block restores the button. -/
def handleCreateEmployee (s0 : UIState) (resp : MutResponse) : UIState :=
  let name := jsTrim s0.nameInput
  if name = "" then
    showMessageS s0 "Please enter a name for the new employee." "red"
  else
    let s1 := { s0 with createBtn := ⟨true, "Creating..."⟩ }
    let s2 :=
      match resp with
      | .netFailure msg => showMessageS s1 msg "red"
      | .badStatus err => showMessageS s1 (jsOr err "Failed to create employee.") "red"
      | .success emp =>
        let sa := showMessageS s1 ("Successfully created employee: " ++ emp.name ++ ".") "green"
        let sb := { sa with listRegion := clearSentinel sa.listRegion }
        match renderEmployeeCard emp with
        | none => showMessageS sb typeErrorMessage "red"
        | some _ =>
          let sc := { sb with listRegion := sb.listRegion ++ [Node.card emp false] }
          let opts := sc.employeeOptions ++ [(emp.employee_id, emp.name)]
          let sd := { sc with employeeOptions := opts,
                              employeeSelectedValue := setSelectValue opts emp.employee_id }
          let se := { sd with listRegion := markUpdated emp.employee_id sd.listRegion }
          { se with nameInput := "" }
    { s2 with createBtn := ⟨false, "Create Employee"⟩ }

/-- script.js:121-168 `handleAssignRole`, as a function of the DOM
state, the network outcome, and — for the missing-card fallback, which
fires a fresh `fetchEmployees()` — the outcome of that reload. -/
def handleAssignRole (s0 : UIState) (resp : MutResponse) (reload : LoadResult) : UIState :=
  let employeeId := s0.employeeSelectedValue
  let roleId := s0.roleSelectedValue
  if employeeId = "" ∨ roleId = "" then
    showMessageS s0 "Please select both an employee and a role." "red"
  else
    let s1 := { s0 with assignBtn := ⟨true, "Assigning..."⟩ }
    let s2 :=
      match resp with
      | .netFailure msg => showMessageS s1 msg "red"
      | .badStatus err => showMessageS s1 (jsOr err "Failed to assign role.") "red"
      | .success emp =>
        let sa := showMessageS s1 ("Successfully assigned new role to " ++ emp.name ++ ".") "green"
        if cardExists emp.employee_id sa.listRegion then
          match renderEmployeeCard emp with
          | none => showMessageS sa typeErrorMessage "red"
          | some _ =>
            let sb := { sa with listRegion := replaceCard emp sa.listRegion }
            { sb with listRegion := markUpdated emp.employee_id sb.listRegion }
        else
          fetchEmployees sa reload
    { s2 with assignBtn := ⟨false, "Assign Role"⟩ }

/-! ## Notifier with explicit time

script.js:170-174: `showMessage` sets the shared status line and calls
`setTimeout(() => { messageArea.textContent = ''; }, 5000)`.  The timer
handle is never stored and never cancelled, so every past call keeps a
pending clear.  `MsgState.pending` holds the absolute fire times of all
pending clears; a firing timer blanks the text unconditionally.
-/

/-- The status line and the pending auto-clear timers (absolute fire
times, in ms). -/
structure MsgState where
  text : String
  color : String
  pending : List Nat
deriving Repr, DecidableEq

/-- Page state before any `showMessage` call. -/
def initialMsgState : MsgState := ⟨"", "", []⟩

/-- Run every timer that fires strictly before time `t`: each firing
callback executes `messageArea.textContent = ''`. -/
def fireBefore (t : Nat) (s : MsgState) : MsgState :=
  if s.pending.any (fun d => d < t) then
    { s with text := "", pending := s.pending.filter fun d => t ≤ d }
  else s

/-- Run every timer that fires at or before time `t`. -/
def fireThrough (t : Nat) (s : MsgState) : MsgState :=
  if s.pending.any (fun d => d ≤ t) then
    { s with text := "", pending := s.pending.filter fun d => t < d }
  else s

/-- script.js:170-174 `showMessage(text, color)` invoked at absolute
time `t`: set text and color, schedule a clear at `t + 5000`; no
existing timer is cancelled. -/
def showMessageAt (t : Nat) (text color : String) (s : MsgState) : MsgState :=
  { text := text, color := color, pending := s.pending ++ [t + 5000] }

/-- Process a time-sorted trace of `showMessage` calls
`(time, text, color)`, firing due timers before each call. -/
def runCalls : List (Nat × String × String) → MsgState → MsgState
  | [], s => s
  | c :: rest, s => runCalls rest (showMessageAt c.1 c.2.1 c.2.2 (fireBefore c.1 s))

/-- The status line at time `t` after a time-sorted trace of calls all
at times `≤ t`. -/
def messageAfter (calls : List (Nat × String × String)) (t : Nat) : MsgState :=
  fireThrough t (runCalls calls initialMsgState)

/-! ## Original control labels and concrete fixtures -/

/-- Modelled from the spec: the buttons' original labels come from the
repository's `index.html`, which is not under `src/`; per the spec's
busy/idle state machine these are exactly the labels the `finally`
blocks restore (script.js:117,166). -/
def createBtnOriginal : Btn := ⟨false, "Create Employee"⟩

/-- Modelled from the spec: the assign button's original state; see
`createBtnOriginal`. -/
def assignBtnOriginal : Btn := ⟨false, "Assign Role"⟩

/-- Fixture: the role from the spec's testable property 6. -/
def sampleRole : Role := ⟨"3", "Trainer"⟩

/-- Fixture: a course. -/
def sampleCourse : Course := ⟨"Safety"⟩

/-- Fixture: the employee from the spec's testable property 5. -/
def empAda : Employee := ⟨"42", "Ada", none, some []⟩

/-- Fixture: the employee from the spec's testable property 6. -/
def empBo : Employee := ⟨"7", "Bo", some sampleRole, some [sampleCourse]⟩

/-- Fixture: a response body whose `assigned_courses` is `null`. -/
def empNull : Employee := ⟨"9", "Cy", none, none⟩

/-- Fixture: the page with nothing loaded. -/
def stEmpty : UIState :=
  ⟨[], [], "", [], "", "", createBtnOriginal, assignBtnOriginal, ("", "")⟩

/-- Fixture: a page showing Bo's card, with Bo and a role selected and
a name typed into the input. -/
def stWithBo : UIState :=
  { stEmpty with
    listRegion := [Node.card empBo false]
    employeeOptions := [("7", "Bo")]
    employeeSelectedValue := "7"
    roleOptions := [("3", "Trainer")]
    roleSelectedValue := "3"
    nameInput := "Ada" }

/-- Fixture: a page showing the empty-collection sentinel, with a name
typed into the input. -/
def stSentinel : UIState :=
  { stEmpty with
    listRegion := [Node.para "No employees found."]
    nameInput := "Ada" }

/-- Fixture: a page showing a card for `empNull`, with it and a role
selected. -/
def stWithNull : UIState :=
  { stEmpty with
    listRegion := [Node.card empNull false]
    employeeOptions := [("9", "Cy")]
    employeeSelectedValue := "9"
    roleOptions := [("3", "Trainer")]
    roleSelectedValue := "3" }

/-! ## Helper lemmas -/

theorem strInfix_refl (s : String) : strInfix s s :=
  ⟨[], [], by simp⟩

theorem infix_grow_left (a x b : List Char) (h : x <:+: b) : x <:+: a ++ b := by
  obtain ⟨s, t, hst⟩ := h
  exact ⟨a ++ s, t, by rw [← hst]; simp⟩

theorem infix_head (x rest : List Char) : x <:+: x ++ rest :=
  ⟨[], rest, by simp⟩

theorem strInfix_key_card (emp : Employee) (cs : List Course) :
    strInfix (cardKeyAttr emp.employee_id) (cardMarkup emp cs) := by
  unfold strInfix cardMarkup
  simp only [String.data_append, List.append_assoc]
  exact infix_grow_left _ _ _ (infix_head _ _)

theorem strInfix_nameId_card (emp : Employee) (cs : List Course) :
    strInfix (nameIdText emp.name emp.employee_id) (cardMarkup emp cs) := by
  unfold strInfix cardMarkup
  simp only [String.data_append, List.append_assoc]
  apply infix_grow_left
  apply infix_grow_left
  apply infix_grow_left
  exact infix_head _ _

theorem strInfix_role_card (emp : Employee) (cs : List Course) :
    strInfix (roleText emp.current_role) (cardMarkup emp cs) := by
  unfold strInfix cardMarkup
  simp only [String.data_append, List.append_assoc]
  apply infix_grow_left
  apply infix_grow_left
  apply infix_grow_left
  apply infix_grow_left
  apply infix_grow_left
  exact infix_head _ _

theorem strInfix_items_card (emp : Employee) (cs : List Course) :
    strInfix (renderCourseItems cs) (cardMarkup emp cs) := by
  unfold strInfix cardMarkup
  simp only [String.data_append, List.append_assoc]
  apply infix_grow_left
  apply infix_grow_left
  apply infix_grow_left
  apply infix_grow_left
  apply infix_grow_left
  apply infix_grow_left
  apply infix_grow_left
  exact infix_head _ _

theorem strInfix_name_card (emp : Employee) (cs : List Course) :
    strInfix emp.name (cardMarkup emp cs) := by
  unfold strInfix cardMarkup nameIdText
  simp only [String.data_append, List.append_assoc]
  apply infix_grow_left
  apply infix_grow_left
  apply infix_grow_left
  exact infix_head _ _

theorem strInfix_id_card (emp : Employee) (cs : List Course) :
    strInfix emp.employee_id (cardMarkup emp cs) := by
  unfold strInfix cardMarkup nameIdText
  simp only [String.data_append, List.append_assoc]
  apply infix_grow_left
  apply infix_grow_left
  apply infix_grow_left
  apply infix_grow_left
  apply infix_grow_left
  exact infix_head _ _

theorem renderEmployeeCard_eq_some (e : Employee) (c : String)
    (h : renderEmployeeCard e = some c) :
    ∃ cs, e.assigned_courses = some cs ∧ c = cardMarkup e cs := by
  unfold renderEmployeeCard at h
  cases hac : e.assigned_courses with
  | none => rw [hac] at h; cases h
  | some cs => rw [hac] at h; exact ⟨cs, rfl, (Option.some.inj h).symm⟩

theorem mapRender_spec (l : List Employee) (cards : List String)
    (h : mapRender l = some cards) :
    cards.length = l.length ∧
    ∀ i (hi : i < l.length) (hcard : i < cards.length),
      ∃ cs, (l.get ⟨i, hi⟩).assigned_courses = some cs ∧
        cards.get ⟨i, hcard⟩ = cardMarkup (l.get ⟨i, hi⟩) cs := by
  induction l generalizing cards with
  | nil =>
    simp [mapRender] at h
    subst h
    exact ⟨rfl, fun i hi => absurd hi (by simp)⟩
  | cons e rest ih =>
    unfold mapRender at h
    cases hre : renderEmployeeCard e with
    | none => rw [hre] at h; exact absurd h (by simp)
    | some c =>
      cases hmr : mapRender rest with
      | none => rw [hre, hmr] at h; exact absurd h (by simp)
      | some cs' =>
        rw [hre, hmr] at h
        have hcards : cards = c :: cs' := by
          cases h; rfl
        subst hcards
        obtain ⟨hlen, hspec⟩ := ih cs' hmr
        obtain ⟨cse, hcse, hceq⟩ := renderEmployeeCard_eq_some e c hre
        refine ⟨by simp [hlen], ?_⟩
        intro i hi hcard
        cases i with
        | zero => exact ⟨cse, by simpa using hcse, by simpa using hceq⟩
        | succ n =>
          simpa using hspec n (by simpa using hi) (by simpa using hcard)

theorem clearSentinel_sublist (ns : List Node) :
    List.Sublist (clearSentinel ns) ns := by
  rcases hf : firstParaText ns with _ | t <;> simp only [clearSentinel, hf]
  · exact List.Sublist.refl _
  · split
    · exact List.nil_sublist _
    · exact List.Sublist.refl _

/-- Claim C6: the markup of `renderEmployeeCard` contains the
employee's id and name; the current role's name when present and the
literal `Not Assigned` sentinel when absent; the literal `None`
sentinel when the course list is empty and otherwise one `<li>` per
course title in input order; and the stable key attribute
`id="employee-card-<id>"` by which the card is located later. -/
theorem C6_renderEmployeeCard_contents (emp : Employee) (cs : List Course)
    (hc : emp.assigned_courses = some cs) :
    renderEmployeeCard emp = some (cardMarkup emp cs) ∧
    strInfix emp.employee_id (cardMarkup emp cs) ∧
    strInfix emp.name (cardMarkup emp cs) ∧
    strInfix (cardKeyAttr emp.employee_id) (cardMarkup emp cs) ∧
    (∀ r, emp.current_role = some r → strInfix r.name (cardMarkup emp cs)) ∧
    (emp.current_role = none → strInfix "Not Assigned" (cardMarkup emp cs)) ∧
    (cs = [] → strInfix "<li>None</li>" (cardMarkup emp cs)) ∧
    (cs ≠ [] →
      strInfix (String.join (cs.map fun c => "<li>" ++ c.title ++ "</li>"))
        (cardMarkup emp cs)) := by
  refine ⟨by simp [renderEmployeeCard, hc], strInfix_id_card emp cs,
    strInfix_name_card emp cs, strInfix_key_card emp cs, ?_, ?_, ?_, ?_⟩
  · intro r hr
    have h := strInfix_role_card emp cs
    rw [hr] at h
    simpa [roleText] using h
  · intro hr
    have h := strInfix_role_card emp cs
    rw [hr] at h
    simpa [roleText] using h
  · intro he
    subst he
    have h := strInfix_items_card emp []
    simpa [renderCourseItems] using h
  · intro hne
    have h := strInfix_items_card emp cs
    have hr : renderCourseItems cs
        = String.join (cs.map fun c => "<li>" ++ c.title ++ "</li>") := by
      unfold renderCourseItems
      rw [if_pos (by simpa using List.length_pos.mpr hne)]
    rwa [hr] at h

theorem C6_renderEmployeeCard_contents_witness :
    empBo.assigned_courses = some [sampleCourse] ∧
    renderEmployeeCard empBo = some (cardMarkup empBo [sampleCourse]) ∧
    strInfix (cardKeyAttr empBo.employee_id) (cardMarkup empBo [sampleCourse]) ∧
    strInfix "Trainer" (cardMarkup empBo [sampleCourse]) := by
  have h := C6_renderEmployeeCard_contents empBo [sampleCourse] rfl
  have ht := h.2.2.2.2.1 sampleRole rfl
  exact ⟨rfl, h.1, h.2.2.2.1, by simpa [sampleRole] using ht⟩

/-- Claim C7: `renderEmployeeList` yields the literal
`No employees found.` sentinel on the empty sequence; on a non-empty
sequence of length `n` it is the concatenation of the rendered cards in
input order, exactly `n` card fragments, each carrying the stable key
attribute for its employee id. -/
theorem C7_renderEmployeeList_shape (employees : List Employee) :
    (employees = [] →
      renderEmployeeList employees = some "<p>No employees found.</p>") ∧
    (∀ out, employees ≠ [] → renderEmployeeList employees = some out →
      ∃ cards, mapRender employees = some cards ∧
        out = String.join cards ∧
        cards.length = employees.length ∧
        ∀ i (hi : i < employees.length) (hcard : i < cards.length),
          strInfix (cardKeyAttr (employees.get ⟨i, hi⟩).employee_id)
            (cards.get ⟨i, hcard⟩)) := by
  constructor
  · intro h
    subst h
    rfl
  · intro out hne hout
    unfold renderEmployeeList at hout
    rw [if_neg (by simpa using hne)] at hout
    cases hmr : mapRender employees with
    | none => rw [hmr] at hout; cases hout
    | some cards =>
      rw [hmr] at hout
      obtain ⟨hlen, hspec⟩ := mapRender_spec employees cards hmr
      refine ⟨cards, rfl, (Option.some.inj hout).symm, hlen, ?_⟩
      intro i hi hcard
      obtain ⟨cse, _, hceq⟩ := hspec i hi hcard
      rw [hceq]
      exact strInfix_key_card _ _

theorem C7_renderEmployeeList_shape_witness :
    renderEmployeeList ([] : List Employee) = some "<p>No employees found.</p>" ∧
    (∃ cards, mapRender [empBo] = some cards ∧
      String.join [cardMarkup empBo [sampleCourse]] = String.join cards ∧
      cards.length = [empBo].length ∧
      ∀ i (hi : i < [empBo].length) (hcard : i < cards.length),
        strInfix (cardKeyAttr (([empBo].get ⟨i, hi⟩)).employee_id)
          (cards.get ⟨i, hcard⟩)) := by
  constructor
  · exact (C7_renderEmployeeList_shape []).1 rfl
  · exact (C7_renderEmployeeList_shape [empBo]).2
      (String.join [cardMarkup empBo [sampleCourse]]) (by simp) rfl

/-- Claim C9: the Renderer functions are pure and deterministic — equal
inputs give byte-identical markup — and a repeated collection reload
from identical data leaves the list region and the selector options
byte-identical. -/
theorem C9_renderer_deterministic (e₁ e₂ : Employee) (l₁ l₂ : List Employee)
    (s : UIState) (r : LoadResult) (he : e₁ = e₂) (hl : l₁ = l₂) :
    renderEmployeeCard e₁ = renderEmployeeCard e₂ ∧
    renderEmployeeList l₁ = renderEmployeeList l₂ ∧
    (fetchEmployees (fetchEmployees s r) r).listRegion
      = (fetchEmployees s r).listRegion ∧
    (fetchEmployees (fetchEmployees s r) r).employeeOptions
      = (fetchEmployees s r).employeeOptions := by
  subst he
  subst hl
  refine ⟨rfl, rfl, ?_, ?_⟩ <;>
    cases r with
    | failure => rfl
    | success emps =>
      cases hn : renderEmployeeListNodes emps <;> simp [fetchEmployees, hn]

theorem C9_renderer_deterministic_witness :
    renderEmployeeCard empAda = renderEmployeeCard empAda ∧
    renderEmployeeList [empAda] = renderEmployeeList [empAda] ∧
    (fetchEmployees (fetchEmployees stEmpty (.success [empAda]))
        (.success [empAda])).listRegion
      = (fetchEmployees stEmpty (.success [empAda])).listRegion ∧
    (fetchEmployees (fetchEmployees stEmpty (.success [empAda]))
        (.success [empAda])).employeeOptions
      = (fetchEmployees stEmpty (.success [empAda])).employeeOptions :=
  C9_renderer_deterministic empAda empAda [empAda] [empAda] stEmpty
    (.success [empAda]) rfl rfl

/-- Claim C10: `renderEmployeeCard` totally returns markup whenever
`assigned_courses` is an array, and throws when it is `null`/absent; a
success response whose body lacks the array therefore adds no card in
`handleCreateEmployee` (and leaves selector and input untouched) and
replaces no card in `handleAssignRole`. -/
theorem C10_assigned_courses_required (emp : Employee) (s : UIState)
    (reload : LoadResult) :
    (∀ cs, emp.assigned_courses = some cs →
      renderEmployeeCard emp = some (cardMarkup emp cs)) ∧
    (emp.assigned_courses = none → renderEmployeeCard emp = none) ∧
    (emp.assigned_courses = none →
      List.Sublist (handleCreateEmployee s (.success emp)).listRegion s.listRegion ∧
      (handleCreateEmployee s (.success emp)).employeeOptions = s.employeeOptions ∧
      (handleCreateEmployee s (.success emp)).nameInput = s.nameInput) ∧
    (emp.assigned_courses = none →
      cardExists emp.employee_id s.listRegion = true →
      (handleAssignRole s (.success emp) reload).listRegion = s.listRegion) := by
  refine ⟨fun cs hc => by simp [renderEmployeeCard, hc],
    fun hn => by simp [renderEmployeeCard, hn], ?_, ?_⟩
  · intro hn
    have hrender : renderEmployeeCard emp = none := by
      simp [renderEmployeeCard, hn]
    by_cases hname : jsTrim s.nameInput = ""
    · simp [handleCreateEmployee, hname, showMessageS]
    · simp [handleCreateEmployee, hname, hrender, showMessageS]
      exact clearSentinel_sublist _
  · intro hn hex
    have hrender : renderEmployeeCard emp = none := by
      simp [renderEmployeeCard, hn]
    by_cases h1 : s.employeeSelectedValue = ""
    · simp [handleAssignRole, h1, showMessageS]
    · by_cases h2 : s.roleSelectedValue = ""
      · simp [handleAssignRole, h2, showMessageS]
      · simp [handleAssignRole, h1, h2, hex, hrender, showMessageS]

theorem C10_assigned_courses_required_witness :
    empNull.assigned_courses = none ∧
    renderEmployeeCard empNull = none ∧
    cardExists empNull.employee_id stWithNull.listRegion = true ∧
    (handleAssignRole stWithNull (.success empNull) .failure).listRegion
      = stWithNull.listRegion ∧
    List.Sublist (handleCreateEmployee stWithNull (.success empNull)).listRegion
      stWithNull.listRegion := by
  have h := C10_assigned_courses_required empNull stWithNull .failure
  exact ⟨rfl, h.2.1 rfl, by decide, h.2.2.2 rfl (by decide), (h.2.2.1 rfl).1⟩

/-- Claim C3: an empty trimmed name in `handleCreateEmployee`, or an
empty employee/role selection in `handleAssignRole`, surfaces a
validation message through the Notifier and returns before any network
request — the result does not depend on any network outcome, and list,
selector, and input are unchanged. -/
theorem C3_validation_no_request (s : UIState) (resp resp' : MutResponse)
    (reload reload' : LoadResult) :
    (jsTrim s.nameInput = "" →
      handleCreateEmployee s resp = handleCreateEmployee s resp' ∧
      (handleCreateEmployee s resp).message
        = ("Please enter a name for the new employee.", "red") ∧
      (handleCreateEmployee s resp).listRegion = s.listRegion ∧
      (handleCreateEmployee s resp).employeeOptions = s.employeeOptions ∧
      (handleCreateEmployee s resp).employeeSelectedValue = s.employeeSelectedValue ∧
      (handleCreateEmployee s resp).nameInput = s.nameInput ∧
      (handleCreateEmployee s resp).createBtn = s.createBtn) ∧
    (s.employeeSelectedValue = "" ∨ s.roleSelectedValue = "" →
      handleAssignRole s resp reload = handleAssignRole s resp' reload' ∧
      (handleAssignRole s resp reload).message
        = ("Please select both an employee and a role.", "red") ∧
      (handleAssignRole s resp reload).listRegion = s.listRegion ∧
      (handleAssignRole s resp reload).employeeOptions = s.employeeOptions ∧
      (handleAssignRole s resp reload).employeeSelectedValue = s.employeeSelectedValue ∧
      (handleAssignRole s resp reload).nameInput = s.nameInput ∧
      (handleAssignRole s resp reload).assignBtn = s.assignBtn) := by
  constructor
  · intro h
    simp [handleCreateEmployee, h, showMessageS]
  · intro h
    rcases h with h | h <;> simp [handleAssignRole, h, showMessageS]

theorem C3_validation_no_request_witness :
    jsTrim "" = "" ∧
    (handleCreateEmployee { stWithBo with nameInput := "" } (.netFailure "boom")).message
      = ("Please enter a name for the new employee.", "red") ∧
    (handleAssignRole { stWithBo with employeeSelectedValue := "" }
        (.netFailure "boom") .failure).message
      = ("Please select both an employee and a role.", "red") := by
  have h1 := C3_validation_no_request { stWithBo with nameInput := "" }
    (.netFailure "boom") (.success empAda) .failure (.success [])
  have h2 := C3_validation_no_request { stWithBo with employeeSelectedValue := "" }
    (.netFailure "boom") (.success empAda) .failure (.success [])
  exact ⟨rfl, (h1.1 rfl).2.1, (h2.2 (Or.inl rfl)).2.1⟩

/-- Claim C4: a non-success status on either mutating action surfaces a
Notifier message whose text is the server-supplied `error` when present
(non-empty) and the action's generic fallback otherwise; the handler
catches the failure at its boundary (it is total) and leaves the list,
selector, and input unchanged. -/
theorem C4_backend_error_surfaced (s : UIState) (err : Option String)
    (reload : LoadResult) :
    (jsTrim s.nameInput ≠ "" →
      (handleCreateEmployee s (.badStatus err)).message
        = (jsOr err "Failed to create employee.", "red") ∧
      (∀ m, err = some m → m ≠ "" →
        (handleCreateEmployee s (.badStatus err)).message = (m, "red")) ∧
      (err = none ∨ err = some "" →
        (handleCreateEmployee s (.badStatus err)).message
          = ("Failed to create employee.", "red")) ∧
      (handleCreateEmployee s (.badStatus err)).listRegion = s.listRegion ∧
      (handleCreateEmployee s (.badStatus err)).employeeOptions = s.employeeOptions ∧
      (handleCreateEmployee s (.badStatus err)).nameInput = s.nameInput) ∧
    (s.employeeSelectedValue ≠ "" → s.roleSelectedValue ≠ "" →
      (handleAssignRole s (.badStatus err) reload).message
        = (jsOr err "Failed to assign role.", "red") ∧
      (∀ m, err = some m → m ≠ "" →
        (handleAssignRole s (.badStatus err) reload).message = (m, "red")) ∧
      (err = none ∨ err = some "" →
        (handleAssignRole s (.badStatus err) reload).message
          = ("Failed to assign role.", "red")) ∧
      (handleAssignRole s (.badStatus err) reload).listRegion = s.listRegion ∧
      (handleAssignRole s (.badStatus err) reload).employeeOptions
        = s.employeeOptions) := by
  constructor
  · intro hname
    refine ⟨by simp [handleCreateEmployee, hname, showMessageS], ?_, ?_, ?_, ?_, ?_⟩
    · intro m hm hne
      subst hm
      simp [handleCreateEmployee, hname, showMessageS, jsOr, hne]
    · intro hcase
      rcases hcase with h | h <;> subst h <;>
        simp [handleCreateEmployee, hname, showMessageS, jsOr]
    · simp [handleCreateEmployee, hname, showMessageS]
    · simp [handleCreateEmployee, hname, showMessageS]
    · simp [handleCreateEmployee, hname, showMessageS]
  · intro h1 h2
    refine ⟨by simp [handleAssignRole, h1, h2, showMessageS], ?_, ?_, ?_, ?_⟩
    · intro m hm hne
      subst hm
      simp [handleAssignRole, h1, h2, showMessageS, jsOr, hne]
    · intro hcase
      rcases hcase with h | h <;> subst h <;>
        simp [handleAssignRole, h1, h2, showMessageS, jsOr]
    · simp [handleAssignRole, h1, h2, showMessageS]
    · simp [handleAssignRole, h1, h2, showMessageS]

theorem C4_backend_error_surfaced_witness :
    jsTrim stWithBo.nameInput ≠ "" ∧
    (handleCreateEmployee stWithBo (.badStatus (some "Name exists"))).message
      = ("Name exists", "red") ∧
    (handleAssignRole stWithBo (.badStatus none) .failure).message
      = ("Failed to assign role.", "red") := by
  have h1 := C4_backend_error_surfaced stWithBo (some "Name exists") .failure
  have h2 := C4_backend_error_surfaced stWithBo none .failure
  refine ⟨by decide, ?_, ?_⟩
  · exact (h1.1 (by decide)).2.1 "Name exists" rfl (by decide)
  · exact (h2.2 (by decide) (by decide)).2.2.1 (Or.inl rfl)

/-- Claim C5: once validation passes, both mutating handlers restore
the triggering control to its enabled, original-label state on every
exit path — network failure, non-success status, or success (with or
without a renderable body). -/
theorem C5_button_restored (s : UIState) (resp : MutResponse)
    (reload : LoadResult) :
    (jsTrim s.nameInput ≠ "" →
      (handleCreateEmployee s resp).createBtn = createBtnOriginal) ∧
    (s.employeeSelectedValue ≠ "" → s.roleSelectedValue ≠ "" →
      (handleAssignRole s resp reload).assignBtn = assignBtnOriginal) := by
  constructor
  · intro hname
    simp [handleCreateEmployee, hname, createBtnOriginal, showMessageS]
  · intro h1 h2
    simp [handleAssignRole, h1, h2, assignBtnOriginal, showMessageS]

theorem C5_button_restored_witness :
    jsTrim stWithBo.nameInput ≠ "" ∧
    stWithBo.employeeSelectedValue ≠ "" ∧
    stWithBo.roleSelectedValue ≠ "" ∧
    (handleCreateEmployee stWithBo (.netFailure "Failed to fetch")).createBtn
      = createBtnOriginal ∧
    (handleAssignRole stWithBo (.success empNull) .failure).assignBtn
      = assignBtnOriginal := by
  have h1 := C5_button_restored stWithBo (.netFailure "Failed to fetch") .failure
  have h2 := C5_button_restored stWithBo (.success empNull) .failure
  exact ⟨by decide, by decide, by decide, h1.1 (by decide),
    h2.2 (by decide) (by decide)⟩

theorem cardExists_append_cons (key : String) (pre post : List Node)
    (old : Employee) (u : Bool) (h : old.employee_id = key) :
    cardExists key (pre ++ Node.card old u :: post) = true := by
  induction pre with
  | nil => simp [cardExists, h]
  | cons n rest ih =>
    cases n with
    | para t => simpa [cardExists] using ih
    | card e v => simp [cardExists, ih]

theorem replaceCard_append_cons (emp : Employee) (pre post : List Node)
    (old : Employee) (u : Bool)
    (hpre : cardExists emp.employee_id pre = false)
    (h : old.employee_id = emp.employee_id) :
    replaceCard emp (pre ++ Node.card old u :: post)
      = pre ++ Node.card emp false :: post := by
  induction pre with
  | nil => simp [replaceCard, h]
  | cons n rest ih =>
    cases n with
    | para t =>
      simp only [List.cons_append, replaceCard]
      exact congrArg _ (ih (by simpa [cardExists] using hpre))
    | card e v =>
      simp only [cardExists, Bool.or_eq_false_iff, decide_eq_false_iff_not] at hpre
      simp only [List.cons_append, replaceCard, if_neg hpre.1]
      exact congrArg _ (ih hpre.2)

theorem markUpdated_append_cons (key : String) (pre post : List Node)
    (e : Employee) (u : Bool)
    (hpre : cardExists key pre = false) (h : e.employee_id = key) :
    markUpdated key (pre ++ Node.card e u :: post)
      = pre ++ Node.card e true :: post := by
  induction pre with
  | nil => simp [markUpdated, h]
  | cons n rest ih =>
    cases n with
    | para t =>
      simp only [List.cons_append, markUpdated]
      exact congrArg _ (ih (by simpa [cardExists] using hpre))
    | card e' v =>
      simp only [cardExists, Bool.or_eq_false_iff, decide_eq_false_iff_not] at hpre
      simp only [List.cons_append, markUpdated, if_neg hpre.1]
      exact congrArg _ (ih hpre.2)

theorem markUpdated_append (key : String) (l₁ l₂ : List Node) :
    markUpdated key (l₁ ++ l₂)
      = if cardExists key l₁ then markUpdated key l₁ ++ l₂
        else l₁ ++ markUpdated key l₂ := by
  induction l₁ with
  | nil => simp [cardExists, markUpdated]
  | cons n rest ih =>
    cases n with
    | para t =>
      by_cases h : cardExists key rest = true <;>
        simp [markUpdated, cardExists, ih, h]
    | card e v =>
      by_cases he : e.employee_id = key
      · simp [markUpdated, cardExists, he]
      · by_cases h : cardExists key rest = true <;>
          simp [markUpdated, cardExists, ih, he, h]

theorem markUpdated_append_getLast (key : String) (l : List Node)
    (emp : Employee) (b : Bool) :
    ∃ u, (markUpdated key (l ++ [Node.card emp b])).getLast?
      = some (Node.card emp u) := by
  rw [markUpdated_append]
  by_cases h : cardExists key l = true
  · exact ⟨b, by simp [h, List.getLast?_concat]⟩
  · by_cases he : emp.employee_id = key
    · exact ⟨true, by simp [h, markUpdated, he, List.getLast?_concat]⟩
    · exact ⟨b, by simp [h, markUpdated, he, List.getLast?_concat]⟩

theorem fetchEmployees_fields (s s' : UIState) (r : LoadResult)
    (hopt : s.employeeOptions = s'.employeeOptions) :
    (fetchEmployees s r).listRegion = (fetchEmployees s' r).listRegion ∧
    (fetchEmployees s r).employeeOptions = (fetchEmployees s' r).employeeOptions := by
  cases r with
  | failure => exact ⟨rfl, hopt⟩
  | success emps =>
    cases hn : renderEmployeeListNodes emps <;> simp [fetchEmployees, hn]

/-- Claim C1: on a successful `AssignRole` response, when a card with
the stable key of the response body's `employee_id` is in the list, the
handler replaces that entire card with a freshly rendered card built
from the response body — the snapshot shown is exactly the response
snapshot, the surrounding nodes are untouched — and when no such card
is in the list it performs a full reload of the employee collection. -/
theorem C1_assign_success_sync (s : UIState) (emp : Employee) (cs : List Course)
    (reload : LoadResult)
    (h1 : s.employeeSelectedValue ≠ "") (h2 : s.roleSelectedValue ≠ "")
    (hc : emp.assigned_courses = some cs) :
    (∀ pre post old u,
      s.listRegion = pre ++ Node.card old u :: post →
      old.employee_id = emp.employee_id →
      cardExists emp.employee_id pre = false →
      (handleAssignRole s (.success emp) reload).listRegion
        = pre ++ Node.card emp true :: post) ∧
    (cardExists emp.employee_id s.listRegion = false →
      (handleAssignRole s (.success emp) reload).listRegion
        = (fetchEmployees s reload).listRegion ∧
      (handleAssignRole s (.success emp) reload).employeeOptions
        = (fetchEmployees s reload).employeeOptions) := by
  have hrender : renderEmployeeCard emp = some (cardMarkup emp cs) := by
    simp [renderEmployeeCard, hc]
  constructor
  · intro pre post old u hsl hold hpre
    have hex : cardExists emp.employee_id s.listRegion = true := by
      rw [hsl]
      exact cardExists_append_cons _ _ _ _ _ hold
    simp [handleAssignRole, showMessageS, h1, h2, hex, hrender]
    rw [hsl, replaceCard_append_cons _ _ _ _ _ hpre hold,
      markUpdated_append_cons _ _ _ _ _ hpre rfl]
  · intro hnex
    simp [handleAssignRole, showMessageS, h1, h2, hnex]
    exact fetchEmployees_fields _ _ _ rfl

theorem C1_assign_success_sync_witness :
    stWithBo.employeeSelectedValue ≠ "" ∧
    stWithBo.roleSelectedValue ≠ "" ∧
    empBo.assigned_courses = some [sampleCourse] ∧
    stWithBo.listRegion = [] ++ Node.card empBo false :: [] ∧
    (handleAssignRole stWithBo (.success empBo) .failure).listRegion
      = [] ++ Node.card empBo true :: [] ∧
    cardExists empAda.employee_id stWithBo.listRegion = false ∧
    (handleAssignRole stWithBo (.success empAda) .failure).listRegion
      = (fetchEmployees stWithBo .failure).listRegion := by
  have hrep := C1_assign_success_sync stWithBo empBo [sampleCourse] .failure
    (by decide) (by decide) rfl
  have hfall := C1_assign_success_sync stWithBo empAda [] .failure
    (by decide) (by decide) rfl
  exact ⟨by decide, by decide, rfl, rfl,
    hrep.1 [] [] empBo false rfl rfl (by decide),
    by decide, (hfall.2 (by decide)).1⟩

/-- Claim C2: on a successful `CreateEmployee` response, the handler
clears the empty-collection sentinel if displayed, appends a freshly
rendered card for the returned employee at the end of the list, appends
an option valued `employee_id` and labeled `name` to the employee
selector and selects it, clears the name input, and the card markup
contains `name (ID: employee_id)`. -/
theorem C2_create_success (s : UIState) (emp : Employee) (cs : List Course)
    (hname : jsTrim s.nameInput ≠ "") (hc : emp.assigned_courses = some cs) :
    (firstParaText s.listRegion = some "No employees found." →
      (handleCreateEmployee s (.success emp)).listRegion = [Node.card emp true]) ∧
    (∃ u, (handleCreateEmployee s (.success emp)).listRegion.getLast?
      = some (Node.card emp u)) ∧
    (handleCreateEmployee s (.success emp)).employeeOptions
      = s.employeeOptions ++ [(emp.employee_id, emp.name)] ∧
    (handleCreateEmployee s (.success emp)).employeeSelectedValue
      = emp.employee_id ∧
    (handleCreateEmployee s (.success emp)).nameInput = "" ∧
    strInfix (nameIdText emp.name emp.employee_id) (cardMarkup emp cs) := by
  have hrender : renderEmployeeCard emp = some (cardMarkup emp cs) := by
    simp [renderEmployeeCard, hc]
  refine ⟨?_, ?_, ?_, ?_, ?_, strInfix_nameId_card emp cs⟩
  · intro hsent
    simp [handleCreateEmployee, showMessageS, hname, hrender, clearSentinel,
      hsent, markUpdated]
  · obtain ⟨u, hu⟩ := markUpdated_append_getLast emp.employee_id
      (clearSentinel s.listRegion) emp false
    simp [handleCreateEmployee, showMessageS, hname, hrender]
    cases u
    · exact Or.inl hu
    · exact Or.inr hu
  · simp [handleCreateEmployee, showMessageS, hname, hrender]
  · simp [handleCreateEmployee, showMessageS, hname, hrender, setSelectValue]
  · simp [handleCreateEmployee, showMessageS, hname, hrender]

theorem C2_create_success_witness :
    jsTrim stSentinel.nameInput ≠ "" ∧
    empAda.assigned_courses = some [] ∧
    firstParaText stSentinel.listRegion = some "No employees found." ∧
    (handleCreateEmployee stSentinel (.success empAda)).listRegion
      = [Node.card empAda true] ∧
    (handleCreateEmployee stSentinel (.success empAda)).employeeOptions
      = stSentinel.employeeOptions ++ [("42", "Ada")] ∧
    (handleCreateEmployee stSentinel (.success empAda)).employeeSelectedValue
      = "42" ∧
    (handleCreateEmployee stSentinel (.success empAda)).nameInput = "" ∧
    strInfix (nameIdText "Ada" "42") (cardMarkup empAda []) := by
  have h := C2_create_success stSentinel empAda [] (by decide) rfl
  exact ⟨by decide, rfl, rfl, h.1 rfl, h.2.2.1, h.2.2.2.1, h.2.2.2.2.1,
    h.2.2.2.2.2⟩

/-- Claim C8, as stated, is false: with `showMessage` calls at 0 ms
(`A`) and 3000 ms (`B`), the message `B` displayed by the later call is
cleared at 5000 ms by the timer scheduled by the earlier call — 3000 ms
before `B`'s own clear at 8000 ms — because script.js:173 never cancels
a pending `setTimeout`. -/
theorem C8_showMessage_counterexample :
    (messageAfter [(0, "A", "red"), (3000, "B", "green")] 3000).text = "B" ∧
    (messageAfter [(0, "A", "red"), (3000, "B", "green")] 5000).text = "" ∧
    (messageAfter [(0, "A", "red"), (3000, "B", "green")] 5000).text ≠ "B" ∧
    (5000 : Nat) < 3000 + 5000 := by
  exact ⟨by decide, by decide, by decide, by decide⟩

/-- Claim C8 amended: every `showMessage` call sets the shared status
line's text and color and schedules a clear of the line 5000 ms later;
pending clears from earlier calls are not cancelled, so any
already-scheduled timer that comes due blanks whatever message is then
displayed — including one displayed by a later call. -/
theorem C8_showMessage_sets_and_schedules (s : MsgState) (t u : Nat)
    (txt c : String) :
    (showMessageAt t txt c s).text = txt ∧
    (showMessageAt t txt c s).color = c ∧
    (showMessageAt t txt c s).pending = s.pending ++ [t + 5000] ∧
    ((showMessageAt t txt c s).pending.any (fun d => d ≤ u) = true →
      (fireThrough u (showMessageAt t txt c s)).text = "") := by
  refine ⟨rfl, rfl, rfl, ?_⟩
  intro h
  simp [fireThrough, h]

theorem C8_showMessage_sets_and_schedules_witness :
    (showMessageAt 3000 "B" "green" (showMessageAt 0 "A" "red" initialMsgState)).text
      = "B" ∧
    (showMessageAt 3000 "B" "green"
        (showMessageAt 0 "A" "red" initialMsgState)).pending.any (fun d => d ≤ 5000)
      = true ∧
    (fireThrough 5000 (showMessageAt 3000 "B" "green"
        (showMessageAt 0 "A" "red" initialMsgState))).text = "" := by
  have h := C8_showMessage_sets_and_schedules
    (showMessageAt 0 "A" "red" initialMsgState) 3000 5000 "B" "green"
  exact ⟨h.1, by decide, h.2.2.2 (by decide)⟩

end RoleAssign
